import Mathlib

/-!
# teowebrtc signal client

A shallow embedding of `teowebrtc_signal_client.go` and the properties checked
on it.

* Go values of type `[]byte` are lists of bytes, `error` is `Option Error`
  (`none` is the nil error), a nil pointer or nil interface is `none`.
* The calls of `log` write to the process log only and are left out.
* The transport (`nhooyr.io/websocket`), `context`, `net/url` and
  `encoding/json` are not part of the repository.  The transport and `context`
  are a scripted `World` that records every call in a trace; the codec and the
  URL renderer are the fields of `Library`, a parameter of every operation that
  uses them.
* An operation returns `none` when the Go code stops with a nil-pointer
  dereference, and `some (results, world)` otherwise.
-/

set_option linter.dupNamespace false

namespace teowebrtc_signal_client

/-! ## Go values -/

/-- A Go `[]byte`; the nil slice is the empty list. -/
abbrev Bytes := List UInt8

/-- A non-nil Go `error`, by its message. -/
structure Error where
  msg : String
deriving DecidableEq, Repr

/-- A `*websocket.Conn` that is not nil, by its identity. -/
structure Conn where
  id : Nat
deriving DecidableEq, Repr

/-- A `context.Context` that is not nil.  `withTimeout parent d n` is the
result of the `n`-th call of `context.WithTimeout(parent, d)`, with `d` in
nanoseconds. -/
inductive Context where
  | background : Context
  | withTimeout (parent : Context) (timeout : Nat) (serial : Nat) : Context
deriving DecidableEq, Repr

/-- A `context.CancelFunc` that is not nil: it cancels `ctx`. -/
structure CancelFunc where
  ctx : Context
deriving DecidableEq, Repr

/-- The constant `time.Minute`, in nanoseconds. -/
def Minute : Nat := 60000000000

/-- The type `websocket.MessageType`. -/
inductive MessageType where
  | zero : MessageType
  | MessageText : MessageType
  | MessageBinary : MessageType
deriving DecidableEq, Repr

/-- The constant `websocket.StatusNormalClosure`. -/
def StatusNormalClosure : Nat := 1000

/-- A value held by an `interface{}` after `encoding/json` decoded into it;
`nil` is also the zero value of `interface{}`.  A `float64` is given by its
bit pattern. -/
inductive Value where
  | nil : Value
  | bool (b : Bool) : Value
  | float64 (bits : Nat) : Value
  | string (s : String) : Value
  | array (items : List Value) : Value
  | object (entries : List (String × Value)) : Value
deriving Repr

/-- The struct `url.URL`, with the fields the client sets. -/
structure URL where
  Scheme : String
  Host : String
  Path : String
deriving DecidableEq, Repr

/-! ## The types of the source -/

/-- The struct `Login`; its fields are encoded under the JSON keys "signal" and
"login". -/
structure Login where
  Signal : String
  Login : String
deriving DecidableEq, Repr

/-- The struct `Signal`; its fields are encoded under the JSON keys "signal",
"peer" and "data". -/
structure Signal where
  Signal : String
  Peer : String
  Data : Value
deriving Repr

/-- The zero value of `Signal`, the initial value of the result `sig`. -/
def zeroSignal : Signal := ⟨"", "", Value.nil⟩

/-- The struct `SignalClient`. -/
structure SignalClient where
  conn : Option Conn
  ctx : Option Context
  cancel : Option CancelFunc
deriving DecidableEq, Repr

/-! ## The libraries the source calls -/

/-- The functions of `net/url` and `encoding/json` at the types the client
uses them.  A decoder takes the bytes and the value its target holds before the
call, and returns the value the target holds after the call and the error. -/
structure Library where
  urlString : URL → String
  jsonMarshalLogin : Login → Bytes × Option Error
  jsonMarshalSignal : Signal → Bytes × Option Error
  jsonUnmarshalAny : Bytes → Value → Value × Option Error
  jsonUnmarshalSignal : Bytes → Signal → Signal × Option Error

/-- One call of the transport or of `context`, with its arguments and what it
returned. -/
inductive Event where
  | dial (ctx : Context) (u : String) (res : Except Error Conn) : Event
  | write (c : Conn) (ctx : Context) (typ : MessageType) (p : Bytes)
      (err : Option Error) : Event
  | read (c : Conn) (ctx : Context) (typ : MessageType) (p : Bytes)
      (err : Option Error) : Event
  | close (c : Conn) (code : Nat) (reason : String) (err : Option Error) : Event
  | cancel (ctx : Context) : Event

/-- The state of everything outside the client: what the next dials, sends and
receives will return, which connections are closed, which contexts are
cancelled, how many contexts were made, and the calls so far, oldest first. -/
structure World where
  dials : List (Except Error Conn)
  writes : List (Option Error)
  reads : List (MessageType × Bytes × Option Error)
  closed : List Conn
  cancelled : List Context
  serial : Nat
  trace : List Event

/-- The error of a dial no server answers. -/
def errDial : Error := ⟨"dial: no answer"⟩

/-- The error of a send or receive on a closed connection. -/
def errClosed : Error := ⟨"use of closed network connection"⟩

/-- The error `context.Canceled`. -/
def errCanceled : Error := ⟨"context canceled"⟩

/-- The error `context.DeadlineExceeded`. -/
def errDeadlineExceeded : Error := ⟨"context deadline exceeded"⟩

/-- Modelled from the spec: `context.WithTimeout(parent, timeout)`, the
lifetime context of section 4.1 together with its cancel function. -/
def WithTimeout (parent : Context) (timeout : Nat) (w : World) :
    (Context × CancelFunc) × World :=
  let ctx := Context.withTimeout parent timeout w.serial
  ((ctx, ⟨ctx⟩), { w with serial := w.serial + 1 })

/-- Modelled from the spec: what the transport's `dial` of section 6 returns in
this state: the next outcome of the script; a dial nothing answers fails. -/
def World.dialOutcome (w : World) : Except Error Conn :=
  match w.dials with
  | [] => Except.error errDial
  | r :: _ => r

/-- Modelled from the spec: the transport's `dial` of section 6,
`websocket.Dial(ctx, u, nil)`, with the connection and the error of its
results. -/
def Dial (ctx : Context) (u : String) (w : World) : Except Error Conn × World :=
  (w.dialOutcome,
    { w with dials := w.dials.tail, trace := w.trace ++ [Event.dial ctx u w.dialOutcome] })

/-- Modelled from the spec: whether `c` was closed or `ctx` was cancelled
(sections 4.1 and 5): a send or receive then fails at once. -/
def World.down (w : World) (c : Conn) (ctx : Context) : Option Error :=
  if c ∈ w.closed then some errClosed
  else if ctx ∈ w.cancelled then some errCanceled
  else none

/-- Modelled from the spec: what the transport's `send` of section 6 returns in
this state: the error of a closed connection or cancelled context, otherwise
the next outcome of the script; a send nothing accepts ends with the deadline. -/
def World.sendOutcome (w : World) (c : Conn) (ctx : Context) : Option Error :=
  match w.down c ctx with
  | some err => some err
  | none =>
    match w.writes with
    | [] => some errDeadlineExceeded
    | err :: _ => err

/-- Modelled from the spec: the transport's `send` of section 6,
`c.Write(ctx, typ, p)`.  A send that reaches the transport uses up one outcome
of the script. -/
def Conn.Write (c : Conn) (ctx : Context) (typ : MessageType) (p : Bytes) (w : World) :
    Option Error × World :=
  (w.sendOutcome c ctx,
    { w with
      writes := if (w.down c ctx).isSome then w.writes else w.writes.tail,
      trace := w.trace ++ [Event.write c ctx typ p (w.sendOutcome c ctx)] })

/-- Modelled from the spec: what the transport's `receive` of section 6 returns
in this state, as the three results of `c.Read(ctx)`: the error of a closed
connection or cancelled context, otherwise the next outcome of the script; a
receive nothing arrives for ends with the deadline. -/
def World.recvOutcome (w : World) (c : Conn) (ctx : Context) :
    MessageType × Bytes × Option Error :=
  match w.down c ctx with
  | some err => (MessageType.zero, [], some err)
  | none =>
    match w.reads with
    | [] => (MessageType.zero, [], some errDeadlineExceeded)
    | r :: _ => r

/-- Modelled from the spec: the transport's `receive` of section 6,
`c.Read(ctx)`.  A receive that reaches the transport uses up one outcome of the
script. -/
def Conn.Read (c : Conn) (ctx : Context) (w : World) :
    (MessageType × Bytes × Option Error) × World :=
  (w.recvOutcome c ctx,
    { w with
      reads := if (w.down c ctx).isSome then w.reads else w.reads.tail,
      trace := w.trace ++ [Event.read c ctx (w.recvOutcome c ctx).1 (w.recvOutcome c ctx).2.1
        (w.recvOutcome c ctx).2.2] })

/-- Modelled from the spec: the transport's `close` of section 6,
`c.Close(code, reason)`: the connection is closed from then on. -/
def Conn.Close (c : Conn) (code : Nat) (reason : String) (w : World) : Option Error × World :=
  let err : Option Error := if c ∈ w.closed then some errClosed else none
  (err, { w with closed := c :: w.closed, trace := w.trace ++ [Event.close c code reason err] })

/-- Modelled from the spec: a call of the cancel function of the lifetime
context (section 5): the context is cancelled from then on. -/
def CancelFunc.call (f : CancelFunc) (w : World) : World :=
  { w with cancelled := f.ctx :: w.cancelled, trace := w.trace ++ [Event.cancel f.ctx] }

/-! ## The functions of the source -/

/-- The function `New`. -/
def New : SignalClient := ⟨none, none, none⟩

/-- The method `waitAnswer`. -/
def SignalClient.waitAnswer (cli : SignalClient) (w : World) :
    Option ((Bytes × Option Error) × World) :=
  match cli.conn, cli.ctx with
  | some c, some ctx =>
    match c.Read ctx w with
    | ((_, message, err), w) => some ((message, err), w)
  | _, _ => none

/-- The method `Connect`; the client it returns is the receiver after the
call. -/
def SignalClient.Connect (L : Library) (cli : SignalClient) (signalServerAddr peerLogin : String)
    (w : World) : Option ((SignalClient × Option Error) × World) :=
  let u : URL := { Scheme := "ws", Host := signalServerAddr, Path := "/signal" }
  match WithTimeout Context.background Minute w with
  | ((ctx, cancel), w) =>
    match Dial ctx (L.urlString u) w with
    | (Except.error err, w) => some ((cli, some err), w)
    | (Except.ok c, w) =>
      let cli : SignalClient := { conn := some c, ctx := some ctx, cancel := some cancel }
      let login : Login := ⟨"login", peerLogin⟩
      match L.jsonMarshalLogin login with
      | (_, some err) => some ((cli, some err), w)
      | (d, none) =>
        match c.Write ctx MessageType.MessageText d w with
        | (some err, w) => some ((cli, some err), w)
        | (none, w) =>
          match cli.waitAnswer w with
          | none => none
          | some (_, w) => some ((cli, none), w)

/-- The method `Close`. -/
def SignalClient.Close (cli : SignalClient) (w : World) : Option World :=
  match cli.conn with
  | none => none
  | some c =>
    match c.Close StatusNormalClosure "done" w with
    | (_, w) =>
      match cli.cancel with
      | none => none
      | some cancel => some (cancel.call w)

/-- The method `WaitOffer`. -/
def SignalClient.WaitOffer (L : Library) (cli : SignalClient) (w : World) :
    Option ((Signal × Option Error) × World) :=
  let sig : Signal := zeroSignal
  match cli.waitAnswer w with
  | none => none
  | some ((_, some err), w) => some ((sig, some err), w)
  | some ((message, none), w) => some (((L.jsonUnmarshalSignal message sig).1, none), w)

/-- The method `WaitCandidate`. -/
def SignalClient.WaitCandidate (L : Library) (cli : SignalClient) (w : World) :
    Option ((Signal × Option Error) × World) :=
  let sig : Signal := zeroSignal
  match cli.waitAnswer w with
  | none => none
  | some ((_, some err), w) => some ((sig, some err), w)
  | some ((message, none), w) => some (((L.jsonUnmarshalSignal message sig).1, none), w)

/-- The method `writeSignal`. -/
def SignalClient.writeSignal (L : Library) (cli : SignalClient) (signal peer : String)
    (date : Bytes) (w : World) : Option (Option Error × World) :=
  let i : Value := (L.jsonUnmarshalAny date Value.nil).1
  let data : Bytes := (L.jsonMarshalSignal ⟨signal, peer, i⟩).1
  match cli.conn, cli.ctx with
  | some c, some ctx => some (c.Write ctx MessageType.MessageText data w)
  | _, _ => none

/-- The method `WriteOffer`. -/
def SignalClient.WriteOffer (L : Library) (cli : SignalClient) (peer : String) (offer : Bytes)
    (w : World) : Option ((Bytes × Option Error) × World) :=
  match cli.writeSignal L "offer" peer offer w with
  | none => none
  | some (some err, w) => some (([], some err), w)
  | some (none, w) => cli.waitAnswer w

/-- The method `WriteAnswer`. -/
def SignalClient.WriteAnswer (L : Library) (cli : SignalClient) (peer : String) (answer : Bytes)
    (w : World) : Option (Option Error × World) :=
  match cli.writeSignal L "answer" peer answer w with
  | none => none
  | some (err, w) => some (err, w)

/-- The method `WriteCandidate`.  The result of `writeSignal` is not assigned:
`err` keeps its zero value. -/
def SignalClient.WriteCandidate (L : Library) (cli : SignalClient) (peer : String)
    (candidate : Bytes) (w : World) : Option (Option Error × World) :=
  let err : Option Error := none
  match cli.writeSignal L "candidate" peer candidate w with
  | none => none
  | some (_, w) => some (err, w)

/-! ## Callers and observations -/

/-- A caller that calls `WriteCandidate` once for each payload of the list, in
the order of the list, for one peer; it returns the errors of the calls. -/
def writeCandidates (L : Library) (cli : SignalClient) (peer : String) :
    List Bytes → World → Option (List (Option Error) × World)
  | [], w => some ([], w)
  | candidate :: rest, w =>
    match cli.WriteCandidate L peer candidate w with
    | none => none
    | some (err, w) =>
      match writeCandidates L cli peer rest w with
      | none => none
      | some (errs, w) => some (err :: errs, w)

/-- The payload of a call that delivered a message to the transport. -/
def Event.sent : Event → Option Bytes
  | Event.write _ _ _ p none => some p
  | _ => none

/-- The outbound stream: the messages the transport accepted, oldest first. -/
def World.outbound (w : World) : List Bytes := w.trace.filterMap Event.sent

/-- The context a send or receive was performed under. -/
def Event.under : Event → Option Context
  | Event.write _ ctx _ _ _ => some ctx
  | Event.read _ ctx _ _ _ => some ctx
  | _ => none

/-- The bytes a signal of the given kind carries on the wire: the payload is
decoded into an `interface{}` that starts nil, and the `Signal` is encoded. -/
def signalBytes (L : Library) (signal peer : String) (date : Bytes) : Bytes :=
  (L.jsonMarshalSignal ⟨signal, peer, (L.jsonUnmarshalAny date Value.nil).1⟩).1

/-! ## A small library and transport for concrete runs -/

/-- The bytes of a text of ASCII characters. -/
def ascii (s : String) : Bytes := s.toList.map (fun ch => ch.toNat.toUInt8)

/-- The text of bytes that are ASCII characters. -/
def text (b : Bytes) : List Char := b.map (fun x => Char.ofNat x.toNat)

/-- A scalar in JSON, for the small codec: null, a boolean, or a string
without escapes; nothing else is encoded. -/
def renderScalar : Value → Option String
  | Value.nil => some "null"
  | Value.bool true => some "true"
  | Value.bool false => some "false"
  | Value.string s => some ("\"" ++ s ++ "\"")
  | _ => none

/-- The scalar a JSON text is, for the small codec. -/
def parseScalar (cs : List Char) : Option Value :=
  if cs = "null".toList then some Value.nil
  else if cs = "true".toList then some (Value.bool true)
  else if cs = "false".toList then some (Value.bool false)
  else
    match cs with
    | '"' :: rest =>
      match rest.reverse with
      | '"' :: body => if '"' ∈ body then none else some (Value.string (String.mk body.reverse))
      | _ => none
    | _ => none

/-- The rest of `cs` after the literal `lit`, when `cs` starts with it. -/
def after (lit : String) (cs : List Char) : Option (List Char) :=
  if lit.toList.isPrefixOf cs then some (cs.drop lit.toList.length) else none

/-- The string up to the next quote, and what follows the quote. -/
def upToQuote (cs : List Char) : Option (String × List Char) :=
  match cs.span (fun ch => ch != '"') with
  | (body, '"' :: rest) => some (String.mk body, rest)
  | _ => none

/-- The small codec's decoder of a signal object with its three fields in the
order of the struct and a scalar as data. -/
def parseSignal (cs : List Char) : Option Signal :=
  match after "\x7b\"signal\":\"" cs with
  | none => none
  | some cs =>
    match upToQuote cs with
    | none => none
    | some (signal, cs) =>
      match after ",\"peer\":\"" cs with
      | none => none
      | some cs =>
        match upToQuote cs with
        | none => none
        | some (peer, cs) =>
          match after ",\"data\":" cs with
          | none => none
          | some cs =>
            match cs.reverse with
            | '\x7d' :: body =>
              match parseScalar body.reverse with
              | none => none
              | some v => some ⟨signal, peer, v⟩
            | _ => none

/-- The error of the small codec. -/
def errCodec : Error := ⟨"json: unsupported"⟩

/-- A small library for concrete runs: URLs are rendered as scheme, host and
path; the codec covers objects whose data is a JSON scalar. -/
def sampleLibrary : Library where
  urlString := fun u => u.Scheme ++ "://" ++ u.Host ++ u.Path
  jsonMarshalLogin := fun l =>
    (ascii ("\x7b\"signal\":\"" ++ l.Signal ++ "\",\"login\":\"" ++ l.Login ++ "\"\x7d"), none)
  jsonMarshalSignal := fun s =>
    match renderScalar s.Data with
    | none => ([], some errCodec)
    | some d =>
      (ascii ("\x7b\"signal\":\"" ++ s.Signal ++ "\",\"peer\":\"" ++ s.Peer ++ "\",\"data\":"
        ++ d ++ "\x7d"), none)
  jsonUnmarshalAny := fun b target =>
    match parseScalar (text b) with
    | none => (target, some errCodec)
    | some v => (v, none)
  jsonUnmarshalSignal := fun b target =>
    match parseSignal (text b) with
    | none => (target, some errCodec)
    | some s => (s, none)

/-- A transport in which nothing has happened yet, with the given script. -/
def World.start (dials : List (Except Error Conn)) (writes : List (Option Error))
    (reads : List (MessageType × Bytes × Option Error)) : World :=
  { dials := dials, writes := writes, reads := reads, closed := [], cancelled := [],
    serial := 0, trace := [] }

/-- The context the first call of `Connect` makes in a fresh transport. -/
def ctx0 : Context := Context.withTimeout Context.background Minute 0

/-- The client after a first `Connect` that dialed connection 1. -/
def client1 : SignalClient := ⟨some ⟨1⟩, some ctx0, some ⟨ctx0⟩⟩

/-- The context `Connect` makes when it is called in the state `w`. -/
def World.connectCtx (w : World) : Context :=
  Context.withTimeout Context.background Minute w.serial

/-- The client `Connect` leaves once the dial returned `c` in the state `w`. -/
def World.dialed (w : World) (c : Conn) : SignalClient :=
  ⟨some c, some w.connectCtx, some ⟨w.connectCtx⟩⟩

/-- The target `Connect` dials for a server address. -/
def target (L : Library) (signalServerAddr : String) : String :=
  L.urlString { Scheme := "ws", Host := signalServerAddr, Path := "/signal" }

/-- Modelled from the spec: the passing of time.  Section 5 has the lifetime
context cancelled by `Close` or by the expiry of its deadline, and a send or
receive under it then ends with an error.  `w.elapse x d` is the state once `d`
nanoseconds have passed since the context `x` was made: when `d` reaches the
timeout of `x`, the context is done and counts among the cancelled ones. -/
def World.elapse (w : World) (x : Context) (d : Nat) : World :=
  match x with
  | Context.background => w
  | Context.withTimeout _ timeout _ =>
    if timeout ≤ d then { w with cancelled := x :: w.cancelled } else w

/-- The error of a send on a broken connection. -/
def errBroken : Error := ⟨"write: broken pipe"⟩

/-- A transport whose first dial returns connection 1, whose first send
succeeds and which then delivers one message. -/
def startWorld : World :=
  World.start [Except.ok ⟨1⟩] [none] [(MessageType.MessageText, ascii "\"welcome\"", none)]

/-- The state in which `client1` is connected, the next two sends succeed and
the next inbound message is a signal of kind "answer". -/
def sessionWorld : World :=
  { dials := [], writes := [none, none],
    reads := [(MessageType.MessageText,
      ascii "\x7b\"signal\":\"answer\",\"peer\":\"peerB\",\"data\":true\x7d", none)],
    closed := [], cancelled := [], serial := 1, trace := [] }

/-- The state after `Connect` in `startWorld` and then `Close`. -/
def closedWorld : Option World :=
  (New.Connect sampleLibrary "host:8080" "alice" startWorld).bind (fun r => r.1.1.Close r.2)

/-- The state after `Connect` in a transport whose first send, the login,
succeeds and whose second send fails. -/
def brokenWorld : Option World :=
  (New.Connect sampleLibrary "host:8080" "alice"
    (World.start [Except.ok ⟨1⟩] [none, some errBroken]
      [(MessageType.MessageText, ascii "\"welcome\"", none)])).map (fun r => r.2)

/-! ## Theorems

First the transport and each operation step by step, then the claims C1 to
C10 with their concrete runs. -/

theorem down_of_open (w : World) (c : Conn) (x : Context) (hc : c ∉ w.closed)
    (hx : x ∉ w.cancelled) : w.down c x = none := by
  simp [World.down, hc, hx]

theorem sendOutcome_of_open (w : World) (c : Conn) (x : Context) (err : Option Error)
    (ws : List (Option Error)) (hc : c ∉ w.closed) (hx : x ∉ w.cancelled)
    (hw : w.writes = err :: ws) : w.sendOutcome c x = err := by
  simp [World.sendOutcome, down_of_open w c x hc hx, hw]

theorem recvOutcome_of_open (w : World) (c : Conn) (x : Context)
    (r : MessageType × Bytes × Option Error) (rs : List (MessageType × Bytes × Option Error))
    (hc : c ∉ w.closed) (hx : x ∉ w.cancelled) (hr : w.reads = r :: rs) :
    w.recvOutcome c x = r := by
  simp [World.recvOutcome, down_of_open w c x hc hx, hr]

theorem writeSignal_connected (L : Library) (cli : SignalClient) (c : Conn) (x : Context)
    (signal peer : String) (date : Bytes) (w : World)
    (hconn : cli.conn = some c) (hctx : cli.ctx = some x) :
    cli.writeSignal L signal peer date w
      = some (c.Write x MessageType.MessageText (signalBytes L signal peer date) w) := by
  simp [SignalClient.writeSignal, hconn, hctx, signalBytes]

theorem waitAnswer_connected (cli : SignalClient) (c : Conn) (x : Context) (w : World)
    (hconn : cli.conn = some c) (hctx : cli.ctx = some x) :
    cli.waitAnswer w
      = some (((w.recvOutcome c x).2.1, (w.recvOutcome c x).2.2), (c.Read x w).2) := by
  simp [SignalClient.waitAnswer, hconn, hctx, Conn.Read]

/-- C1: on a connected client whose connection is open, whose send succeeds
and whose next inbound message is `m`, of whatever content, `WriteOffer peer
offer` returns exactly `m` with a nil error; the transport saw one send of the
text message encoding the signal of kind "offer" for `peer`, then one receive,
and exactly that one inbound message was used up. -/
theorem writeOffer_returns_next_message (L : Library) (cli : SignalClient) (c : Conn)
    (x : Context) (peer : String) (offer m : Bytes) (t : MessageType) (w : World)
    (ws : List (Option Error)) (rs : List (MessageType × Bytes × Option Error))
    (hconn : cli.conn = some c) (hctx : cli.ctx = some x)
    (hc : c ∉ w.closed) (hx : x ∉ w.cancelled)
    (hsend : w.writes = none :: ws) (hread : w.reads = (t, m, none) :: rs) :
    cli.WriteOffer L peer offer w
      = some ((m, none),
          { w with
            writes := ws
            reads := rs
            trace := w.trace ++
              [Event.write c x MessageType.MessageText
                  (L.jsonMarshalSignal ⟨"offer", peer, (L.jsonUnmarshalAny offer Value.nil).1⟩).1
                  none,
                Event.read c x t m none] }) := by
  have hs : w.sendOutcome c x = none := sendOutcome_of_open w c x none ws hc hx hsend
  have hd : w.down c x = none := down_of_open w c x hc hx
  simp only [SignalClient.WriteOffer, writeSignal_connected L cli c x _ _ _ _ hconn hctx,
    Conn.Write, hs, hd]
  rw [waitAnswer_connected cli c x _ hconn hctx]
  simp [Conn.Read, World.recvOutcome, World.down, hc, hx, hsend, hread, signalBytes]

/-- C9: on a connected client `writeSignal kind peer date` sends exactly one
text message, the encoding of the signal with that kind, that peer and as data
the value `v` the decoder left in an `interface{}` that started nil (the
decoded value, and nil, that is null, when the decoder stored nothing); the
decoder's error `derr` is not looked at, and the result is the result of the
send. -/
theorem writeSignal_sends_one_message (L : Library) (cli : SignalClient) (c : Conn)
    (x : Context) (kind peer : String) (date : Bytes) (w : World) (v : Value)
    (derr : Option Error)
    (hconn : cli.conn = some c) (hctx : cli.ctx = some x)
    (hdec : L.jsonUnmarshalAny date Value.nil = (v, derr)) :
    cli.writeSignal L kind peer date w
      = some (w.sendOutcome c x,
          { w with
            writes := if (w.down c x).isSome then w.writes else w.writes.tail
            trace := w.trace ++
              [Event.write c x MessageType.MessageText
                (L.jsonMarshalSignal ⟨kind, peer, v⟩).1 (w.sendOutcome c x)] }) := by
  simp [SignalClient.writeSignal, hconn, hctx, hdec, Conn.Write]

/-- C6: `WaitOffer` and `WaitCandidate` return the same results in every state
of the client and the transport.  On a connected client they perform one
receive; when it fails they return its error, and when it yields a message
they return what the decoder makes of it with a nil error, so a message that
decodes to kind `k`, peer `p` and data `d` is returned as such for every `k`. -/
theorem waitOffer_eq_waitCandidate (L : Library) (cli : SignalClient) (w : World) :
    cli.WaitOffer L w = cli.WaitCandidate L w ∧
    ∀ (c : Conn) (x : Context), cli.conn = some c → cli.ctx = some x →
      (∀ (t : MessageType) (m : Bytes) (e : Error), w.recvOutcome c x = (t, m, some e) →
        cli.WaitOffer L w = some ((zeroSignal, some e), (c.Read x w).2)) ∧
      (∀ (t : MessageType) (m : Bytes) (k p : String) (d : Value) (derr : Option Error),
        w.recvOutcome c x = (t, m, none) →
        L.jsonUnmarshalSignal m zeroSignal = (⟨k, p, d⟩, derr) →
        cli.WaitOffer L w = some ((⟨k, p, d⟩, none), (c.Read x w).2)) ∧
      (c.Read x w).2.trace = w.trace ++
        [Event.read c x (w.recvOutcome c x).1 (w.recvOutcome c x).2.1 (w.recvOutcome c x).2.2] := by
  refine ⟨rfl, ?_⟩
  intro c x hconn hctx
  refine ⟨?_, ?_, rfl⟩
  · intro t m e hr
    simp [SignalClient.WaitOffer, waitAnswer_connected cli c x w hconn hctx, hr]
  · intro t m k p d derr hr hdec
    simp [SignalClient.WaitOffer, waitAnswer_connected cli c x w hconn hctx, hr, hdec]

theorem connect_dial_error (L : Library) (cli : SignalClient) (addr login : String) (w : World)
    (e : Error) (hd : w.dialOutcome = Except.error e) :
    cli.Connect L addr login w
      = some ((cli, some e),
          { w with
            serial := w.serial + 1
            dials := w.dials.tail
            trace := w.trace ++ [Event.dial w.connectCtx (target L addr) (Except.error e)] }) := by
  simp [SignalClient.Connect, WithTimeout, Dial, World.dialOutcome, World.connectCtx, target] at hd ⊢
  rw [hd]

theorem connect_marshal_error (L : Library) (cli : SignalClient) (addr login : String)
    (w : World) (c : Conn) (d : Bytes) (e : Error) (hd : w.dialOutcome = Except.ok c)
    (hm : L.jsonMarshalLogin ⟨"login", login⟩ = (d, some e)) :
    cli.Connect L addr login w
      = some ((w.dialed c, some e),
          { w with
            serial := w.serial + 1
            dials := w.dials.tail
            trace := w.trace ++ [Event.dial w.connectCtx (target L addr) (Except.ok c)] }) := by
  simp [SignalClient.Connect, WithTimeout, Dial, World.dialOutcome, World.connectCtx, target,
    World.dialed] at hd ⊢
  rw [hd]
  simp [hm]

theorem connect_send_error (L : Library) (cli : SignalClient) (addr login : String)
    (w : World) (c : Conn) (e : Error) (hd : w.dialOutcome = Except.ok c)
    (hm : (L.jsonMarshalLogin ⟨"login", login⟩).2 = none)
    (hs : w.sendOutcome c w.connectCtx = some e) :
    cli.Connect L addr login w
      = some ((w.dialed c, some e),
          { w with
            serial := w.serial + 1
            dials := w.dials.tail
            writes := if (w.down c w.connectCtx).isSome then w.writes else w.writes.tail
            trace := w.trace ++
              [Event.dial w.connectCtx (target L addr) (Except.ok c),
                Event.write c w.connectCtx MessageType.MessageText
                  (L.jsonMarshalLogin ⟨"login", login⟩).1 (some e)] }) := by
  rcases hml : L.jsonMarshalLogin ⟨"login", login⟩ with ⟨d, me⟩
  simp only [hml] at hm
  subst hm
  simp [SignalClient.Connect, WithTimeout, Dial, World.dialOutcome, World.connectCtx, target,
    World.dialed] at hd hs ⊢
  rw [hd]
  simp [hml, Conn.Write, World.sendOutcome, World.down] at hs ⊢
  simp [hs]

theorem down_of_sendOutcome (w : World) (c : Conn) (x : Context)
    (hs : w.sendOutcome c x = none) : w.down c x = none := by
  cases hdn : w.down c x with
  | none => rfl
  | some e => simp [World.sendOutcome, hdn] at hs

theorem down_eq_none_iff (w : World) (c : Conn) (x : Context) :
    w.down c x = none ↔ c ∉ w.closed ∧ x ∉ w.cancelled := by
  unfold World.down
  by_cases hc : c ∈ w.closed <;> by_cases hx : x ∈ w.cancelled <;> simp [hc, hx]

theorem connect_sent (L : Library) (cli : SignalClient) (addr login : String)
    (w : World) (c : Conn) (hd : w.dialOutcome = Except.ok c)
    (hm : (L.jsonMarshalLogin ⟨"login", login⟩).2 = none)
    (hs : w.sendOutcome c w.connectCtx = none) :
    cli.Connect L addr login w
      = some ((w.dialed c, none),
          { w with
            serial := w.serial + 1
            dials := w.dials.tail
            writes := w.writes.tail
            reads := w.reads.tail
            trace := w.trace ++
              [Event.dial w.connectCtx (target L addr) (Except.ok c),
                Event.write c w.connectCtx MessageType.MessageText
                  (L.jsonMarshalLogin ⟨"login", login⟩).1 none,
                Event.read c w.connectCtx (w.recvOutcome c w.connectCtx).1
                  (w.recvOutcome c w.connectCtx).2.1 (w.recvOutcome c w.connectCtx).2.2] }) := by
  have hdn := down_of_sendOutcome w c _ hs
  obtain ⟨hc, hx⟩ := (down_eq_none_iff w c _).1 hdn
  rcases hml : L.jsonMarshalLogin ⟨"login", login⟩ with ⟨d, me⟩
  simp only [hml] at hm
  subst hm
  obtain ⟨dials, writes, reads, closed, cancelled, serial, trace⟩ := w
  simp only [World.connectCtx] at hc hx hs
  simp only [World.sendOutcome, World.down, hc, hx, if_false] at hs
  simp only [World.dialOutcome] at hd
  simp only [SignalClient.Connect, WithTimeout, Dial, World.dialOutcome, hd, hml, Conn.Write,
    Conn.Read, SignalClient.waitAnswer, World.sendOutcome, World.recvOutcome, World.down,
    World.connectCtx, target, World.dialed, hc, hx, if_false, hs]
  simp

/-- C10: when the dial and the login send both succeed (and the login
encodes), `Connect` returns a nil error and the connected client whatever its
one receive returned: the outcome of that receive, an error included, is only
recorded by the transport. -/
theorem connect_nil_whatever_read (L : Library) (cli : SignalClient) (addr login : String)
    (w : World) (c : Conn) (hd : w.dialOutcome = Except.ok c)
    (hm : (L.jsonMarshalLogin ⟨"login", login⟩).2 = none)
    (hs : w.sendOutcome c w.connectCtx = none) :
    ∃ w', cli.Connect L addr login w = some ((w.dialed c, none), w') ∧
      w'.trace.getLast? = some (Event.read c w.connectCtx (w.recvOutcome c w.connectCtx).1
        (w.recvOutcome c w.connectCtx).2.1 (w.recvOutcome c w.connectCtx).2.2) := by
  refine ⟨_, connect_sent L cli addr login w c hd hm hs, ?_⟩
  simp

/-- C4: when the login encodes, the transport activity of `Connect` is one of
three: a failed dial to the rendering of the URL with scheme "ws", the server
address as host and path "/signal", and nothing else; that dial succeeding,
then one send of the text message encoding the login `("login", loginId)` that
fails; or that dial, that send succeeding, then one receive, whose results do
not reach the caller. -/
theorem connect_transport_activity (L : Library) (cli : SignalClient) (addr login : String)
    (w : World) (hm : (L.jsonMarshalLogin ⟨"login", login⟩).2 = none) :
    ∃ r w', cli.Connect L addr login w = some (r, w') ∧
      ((∃ e, w.dialOutcome = Except.error e ∧ r = (cli, some e) ∧
          w'.trace = w.trace ++
            [Event.dial w.connectCtx
              (L.urlString { Scheme := "ws", Host := addr, Path := "/signal" })
              (Except.error e)]) ∨
       (∃ c e, w.dialOutcome = Except.ok c ∧ r = (w.dialed c, some e) ∧
          w'.trace = w.trace ++
            [Event.dial w.connectCtx
              (L.urlString { Scheme := "ws", Host := addr, Path := "/signal" })
              (Except.ok c),
             Event.write c w.connectCtx MessageType.MessageText
              (L.jsonMarshalLogin ⟨"login", login⟩).1 (some e)]) ∨
       (∃ c t p e, w.dialOutcome = Except.ok c ∧ r = (w.dialed c, none) ∧
          w'.trace = w.trace ++
            [Event.dial w.connectCtx
              (L.urlString { Scheme := "ws", Host := addr, Path := "/signal" })
              (Except.ok c),
             Event.write c w.connectCtx MessageType.MessageText
              (L.jsonMarshalLogin ⟨"login", login⟩).1 none,
             Event.read c w.connectCtx t p e])) := by
  cases hd : w.dialOutcome with
  | error e =>
    exact ⟨_, _, connect_dial_error L cli addr login w e hd, Or.inl ⟨e, rfl, rfl, rfl⟩⟩
  | ok c =>
    cases hs : w.sendOutcome c w.connectCtx with
    | some e =>
      exact ⟨_, _, connect_send_error L cli addr login w c e hd hm hs,
        Or.inr (Or.inl ⟨c, e, rfl, rfl, rfl⟩)⟩
    | none =>
      exact ⟨_, _, connect_sent L cli addr login w c hd hm hs,
        Or.inr (Or.inr ⟨c, _, _, _, rfl, rfl, rfl⟩)⟩

/-- C5, as amended: when the dial fails `Connect` returns the dial's error and
the client's fields are what they were before the call; when the dial succeeds
and the login does not encode, or the login send fails, `Connect` returns that
error and the client holds the dialed connection, the context of the dial and
its cancel function. -/
theorem connect_failure_paths (L : Library) (cli : SignalClient) (addr login : String)
    (w : World) :
    (∀ e, w.dialOutcome = Except.error e →
      (cli.Connect L addr login w).map (fun r => r.1) = some (cli, some e)) ∧
    (∀ c e, w.dialOutcome = Except.ok c →
      (L.jsonMarshalLogin ⟨"login", login⟩).2 = some e →
      (cli.Connect L addr login w).map (fun r => r.1)
        = some (⟨some c, some w.connectCtx, some ⟨w.connectCtx⟩⟩, some e)) ∧
    (∀ c e, w.dialOutcome = Except.ok c →
      (L.jsonMarshalLogin ⟨"login", login⟩).2 = none →
      w.sendOutcome c w.connectCtx = some e →
      (cli.Connect L addr login w).map (fun r => r.1)
        = some (⟨some c, some w.connectCtx, some ⟨w.connectCtx⟩⟩, some e)) := by
  refine ⟨?_, ?_, ?_⟩
  · intro e hd
    rw [connect_dial_error L cli addr login w e hd]
    rfl
  · intro c e hd hm
    rcases hml : L.jsonMarshalLogin ⟨"login", login⟩ with ⟨d, me⟩
    simp only [hml] at hm
    subst hm
    rw [connect_marshal_error L cli addr login w c d e hd hml]
    rfl
  · intro c e hd hm hs
    rw [connect_send_error L cli addr login w c e hd hm hs]
    rfl

theorem waitOffer_connected (L : Library) (cli : SignalClient) (c : Conn) (x : Context)
    (v : World) (hconn : cli.conn = some c) (hctx : cli.ctx = some x) :
    cli.WaitOffer L v
      = some ((match (v.recvOutcome c x).2.2 with
          | some e => (zeroSignal, some e)
          | none => ((L.jsonUnmarshalSignal (v.recvOutcome c x).2.1 zeroSignal).1, none)),
          (c.Read x v).2) := by
  rcases hr : v.recvOutcome c x with ⟨t, m, e⟩
  cases e <;> simp [SignalClient.WaitOffer, waitAnswer_connected cli c x v hconn hctx, hr]

theorem writeOffer_connected (L : Library) (cli : SignalClient) (c : Conn) (x : Context)
    (peer : String) (offer : Bytes) (v : World) (hconn : cli.conn = some c)
    (hctx : cli.ctx = some x) :
    cli.WriteOffer L peer offer v
      = match v.sendOutcome c x with
        | some e =>
          some (([], some e),
            (c.Write x MessageType.MessageText (signalBytes L "offer" peer offer) v).2)
        | none =>
          some ((((c.Write x MessageType.MessageText (signalBytes L "offer" peer offer)
                    v).2.recvOutcome c x).2.1,
                ((c.Write x MessageType.MessageText (signalBytes L "offer" peer offer)
                    v).2.recvOutcome c x).2.2),
            (c.Read x
              (c.Write x MessageType.MessageText (signalBytes L "offer" peer offer) v).2).2) := by
  cases hs : v.sendOutcome c x with
  | some e =>
    simp [SignalClient.WriteOffer, writeSignal_connected L cli c x _ _ _ _ hconn hctx,
      Conn.Write, hs]
  | none =>
    simp only [SignalClient.WriteOffer, writeSignal_connected L cli c x _ _ _ _ hconn hctx]
    have h1 : (c.Write x MessageType.MessageText (signalBytes L "offer" peer offer) v).1
        = none := hs
    rcases hw : c.Write x MessageType.MessageText (signalBytes L "offer" peer offer) v
      with ⟨r, v1⟩
    rw [hw] at h1
    simp only at h1
    subst h1
    simp only [waitAnswer_connected cli c x _ hconn hctx]

theorem writeCandidate_connected (L : Library) (cli : SignalClient) (c : Conn) (x : Context)
    (peer : String) (candidate : Bytes) (v : World) (hconn : cli.conn = some c)
    (hctx : cli.ctx = some x) :
    cli.WriteCandidate L peer candidate v
      = some (none,
          (c.Write x MessageType.MessageText (signalBytes L "candidate" peer candidate) v).2) := by
  simp [SignalClient.WriteCandidate, writeSignal_connected L cli c x _ _ _ _ hconn hctx]

theorem waitOffer_trace (L : Library) (cli : SignalClient) (c : Conn) (x : Context)
    (v : World) (hconn : cli.conn = some c) (hctx : cli.ctx = some x) :
    ∃ res v', cli.WaitOffer L v = some (res, v') ∧
      v'.trace = v.trace ++
        [Event.read c x (v.recvOutcome c x).1 (v.recvOutcome c x).2.1
          (v.recvOutcome c x).2.2] :=
  ⟨_, _, waitOffer_connected L cli c x v hconn hctx, rfl⟩

theorem writeOffer_trace (L : Library) (cli : SignalClient) (c : Conn) (x : Context)
    (peer : String) (offer : Bytes) (v : World) (hconn : cli.conn = some c)
    (hctx : cli.ctx = some x) :
    ∃ res v', cli.WriteOffer L peer offer v = some (res, v') ∧
      v'.trace = v.trace ++
        Event.write c x MessageType.MessageText
          (L.jsonMarshalSignal ⟨"offer", peer, (L.jsonUnmarshalAny offer Value.nil).1⟩).1
          (v.sendOutcome c x) ::
        (match v.sendOutcome c x with
          | none =>
            [Event.read c x (v.recvOutcome c x).1 (v.recvOutcome c x).2.1
              (v.recvOutcome c x).2.2]
          | some _ => []) := by
  rw [writeOffer_connected L cli c x peer offer v hconn hctx]
  cases hs : v.sendOutcome c x with
  | some e =>
    refine ⟨_, _, rfl, ?_⟩
    simp [Conn.Write, hs, signalBytes]
  | none =>
    refine ⟨_, _, rfl, ?_⟩
    simp [Conn.Read, Conn.Write, hs, signalBytes]
    exact ⟨rfl, rfl, rfl⟩

theorem writeAnswer_trace (L : Library) (cli : SignalClient) (c : Conn) (x : Context)
    (peer : String) (answer : Bytes) (v : World) (hconn : cli.conn = some c)
    (hctx : cli.ctx = some x) :
    ∃ v', cli.WriteAnswer L peer answer v = some (v.sendOutcome c x, v') ∧
      v'.trace = v.trace ++
        [Event.write c x MessageType.MessageText
          (L.jsonMarshalSignal ⟨"answer", peer, (L.jsonUnmarshalAny answer Value.nil).1⟩).1
          (v.sendOutcome c x)] :=
  ⟨(c.Write x MessageType.MessageText (signalBytes L "answer" peer answer) v).2,
    by simp [SignalClient.WriteAnswer, writeSignal_connected L cli c x _ _ _ _ hconn hctx,
      Conn.Write],
    rfl⟩

theorem writeCandidate_trace (L : Library) (cli : SignalClient) (c : Conn) (x : Context)
    (peer : String) (candidate : Bytes) (v : World) (hconn : cli.conn = some c)
    (hctx : cli.ctx = some x) :
    ∃ res v', cli.WriteCandidate L peer candidate v = some (res, v') ∧
      v'.trace = v.trace ++
        [Event.write c x MessageType.MessageText
          (L.jsonMarshalSignal
            ⟨"candidate", peer, (L.jsonUnmarshalAny candidate Value.nil).1⟩).1
          (v.sendOutcome c x)] :=
  ⟨_, _, writeCandidate_connected L cli c x peer candidate v hconn hctx, rfl⟩

theorem down_elapsed (v : World) (c : Conn) (parent : Context) (timeout serial d : Nat)
    (hd : timeout ≤ d) :
    ∃ e, (v.elapse (Context.withTimeout parent timeout serial) d).down c
      (Context.withTimeout parent timeout serial) = some e := by
  by_cases hc : c ∈ v.closed
  · exact ⟨errClosed, by simp [World.elapse, hd, World.down, hc]⟩
  · exact ⟨errCanceled, by simp [World.elapse, hd, World.down, hc]⟩

theorem results_when_down (L : Library) (cli : SignalClient) (c : Conn) (x : Context)
    (peer : String) (payload : Bytes) (v : World) (e : Error)
    (hconn : cli.conn = some c) (hctx : cli.ctx = some x) (hdn : v.down c x = some e) :
    v.sendOutcome c x = some e ∧
    (v.recvOutcome c x).2.2 = some e ∧
    (cli.WaitOffer L v).map (fun q => q.1.2) = some (some e) ∧
    (cli.WaitCandidate L v).map (fun q => q.1.2) = some (some e) ∧
    (cli.WriteOffer L peer payload v).map (fun q => q.1.2) = some (some e) ∧
    (cli.WriteAnswer L peer payload v).map (fun q => q.1) = some (some e) := by
  have hs : v.sendOutcome c x = some e := by simp [World.sendOutcome, hdn]
  have hr : v.recvOutcome c x = (MessageType.zero, [], some e) := by
    simp [World.recvOutcome, hdn]
  have hwo : cli.WaitOffer L v = some ((zeroSignal, some e), (c.Read x v).2) := by
    rw [waitOffer_connected L cli c x v hconn hctx, hr]
  refine ⟨hs, by rw [hr], ?_, ?_, ?_, ?_⟩
  · rw [hwo]; rfl
  · have h : cli.WaitCandidate L v = cli.WaitOffer L v := rfl
    rw [h, hwo]; rfl
  · rw [writeOffer_connected L cli c x peer payload v hconn hctx, hs]; rfl
  · simp [SignalClient.WriteAnswer, writeSignal_connected L cli c x _ _ _ _ hconn hctx,
      Conn.Write, hs]

/-- C8: after a dial that succeeded `Connect` leaves in the client the dialed
connection and the context it gave to the dial, the one made by
`WithTimeout(Background, Minute)`.  In every later state of the transport each
of `WaitOffer`, `WaitCandidate`, `WriteOffer`, `WriteAnswer` and
`WriteCandidate` on that client returns, and what it adds to the calls the
transport saw is exactly its receive, or its send (followed for `WriteOffer` by
the receive when the send succeeded), each issued on that connection under that
context.  Once a minute or more has passed since the context was made, every
send and receive under it fails, and `WaitOffer`, `WaitCandidate`, `WriteOffer`
and `WriteAnswer` return that error; before the minute the passing of time
changes nothing. -/
theorem session_runs_under_dial_context (L : Library) (cli : SignalClient)
    (addr login : String) (w : World) (c : Conn) (hd : w.dialOutcome = Except.ok c) :
    ∃ r w', cli.Connect L addr login w = some (r, w') ∧
      r.1.conn = some c ∧
      r.1.ctx = some (Context.withTimeout Context.background Minute w.serial) ∧
      Event.dial (Context.withTimeout Context.background Minute w.serial)
        (L.urlString { Scheme := "ws", Host := addr, Path := "/signal" }) (Except.ok c)
          ∈ w'.trace ∧
      (∀ (peer : String) (payload : Bytes) (v : World),
        (∃ res v', r.1.WaitOffer L v = some (res, v') ∧
          v'.trace = v.trace ++
            [Event.read c (Context.withTimeout Context.background Minute w.serial)
              (v.recvOutcome c (Context.withTimeout Context.background Minute w.serial)).1
              (v.recvOutcome c (Context.withTimeout Context.background Minute w.serial)).2.1
              (v.recvOutcome c
                (Context.withTimeout Context.background Minute w.serial)).2.2]) ∧
        (∃ res v', r.1.WaitCandidate L v = some (res, v') ∧
          v'.trace = v.trace ++
            [Event.read c (Context.withTimeout Context.background Minute w.serial)
              (v.recvOutcome c (Context.withTimeout Context.background Minute w.serial)).1
              (v.recvOutcome c (Context.withTimeout Context.background Minute w.serial)).2.1
              (v.recvOutcome c
                (Context.withTimeout Context.background Minute w.serial)).2.2]) ∧
        (∃ res v', r.1.WriteOffer L peer payload v = some (res, v') ∧
          v'.trace = v.trace ++
            Event.write c (Context.withTimeout Context.background Minute w.serial)
              MessageType.MessageText
              (L.jsonMarshalSignal
                ⟨"offer", peer, (L.jsonUnmarshalAny payload Value.nil).1⟩).1
              (v.sendOutcome c (Context.withTimeout Context.background Minute w.serial)) ::
            (match v.sendOutcome c
                (Context.withTimeout Context.background Minute w.serial) with
              | none =>
                [Event.read c (Context.withTimeout Context.background Minute w.serial)
                  (v.recvOutcome c
                    (Context.withTimeout Context.background Minute w.serial)).1
                  (v.recvOutcome c
                    (Context.withTimeout Context.background Minute w.serial)).2.1
                  (v.recvOutcome c
                    (Context.withTimeout Context.background Minute w.serial)).2.2]
              | some _ => [])) ∧
        (∃ v', r.1.WriteAnswer L peer payload v
            = some (v.sendOutcome c
                (Context.withTimeout Context.background Minute w.serial), v') ∧
          v'.trace = v.trace ++
            [Event.write c (Context.withTimeout Context.background Minute w.serial)
              MessageType.MessageText
              (L.jsonMarshalSignal
                ⟨"answer", peer, (L.jsonUnmarshalAny payload Value.nil).1⟩).1
              (v.sendOutcome c
                (Context.withTimeout Context.background Minute w.serial))]) ∧
        (∃ res v', r.1.WriteCandidate L peer payload v = some (res, v') ∧
          v'.trace = v.trace ++
            [Event.write c (Context.withTimeout Context.background Minute w.serial)
              MessageType.MessageText
              (L.jsonMarshalSignal
                ⟨"candidate", peer, (L.jsonUnmarshalAny payload Value.nil).1⟩).1
              (v.sendOutcome c
                (Context.withTimeout Context.background Minute w.serial))])) ∧
      (∀ (peer : String) (payload : Bytes) (v : World) (d : Nat),
        (d < Minute →
          v.elapse (Context.withTimeout Context.background Minute w.serial) d = v) ∧
        (Minute ≤ d →
          ∃ e,
            (v.elapse (Context.withTimeout Context.background Minute w.serial) d).sendOutcome c
              (Context.withTimeout Context.background Minute w.serial) = some e ∧
            ((v.elapse (Context.withTimeout Context.background Minute w.serial) d).recvOutcome c
              (Context.withTimeout Context.background Minute w.serial)).2.2 = some e ∧
            (r.1.WaitOffer L
              (v.elapse (Context.withTimeout Context.background Minute w.serial) d)).map
                (fun q => q.1.2) = some (some e) ∧
            (r.1.WaitCandidate L
              (v.elapse (Context.withTimeout Context.background Minute w.serial) d)).map
                (fun q => q.1.2) = some (some e) ∧
            (r.1.WriteOffer L peer payload
              (v.elapse (Context.withTimeout Context.background Minute w.serial) d)).map
                (fun q => q.1.2) = some (some e) ∧
            (r.1.WriteAnswer L peer payload
              (v.elapse (Context.withTimeout Context.background Minute w.serial) d)).map
                (fun q => q.1) = some (some e))) := by
  have hops : ∀ (peer : String) (payload : Bytes) (v : World),
      (∃ res v', (w.dialed c).WaitOffer L v = some (res, v') ∧
        v'.trace = v.trace ++
          [Event.read c w.connectCtx (v.recvOutcome c w.connectCtx).1
            (v.recvOutcome c w.connectCtx).2.1 (v.recvOutcome c w.connectCtx).2.2]) ∧
      (∃ res v', (w.dialed c).WaitCandidate L v = some (res, v') ∧
        v'.trace = v.trace ++
          [Event.read c w.connectCtx (v.recvOutcome c w.connectCtx).1
            (v.recvOutcome c w.connectCtx).2.1 (v.recvOutcome c w.connectCtx).2.2]) ∧
      (∃ res v', (w.dialed c).WriteOffer L peer payload v = some (res, v') ∧
        v'.trace = v.trace ++
          Event.write c w.connectCtx MessageType.MessageText
            (L.jsonMarshalSignal ⟨"offer", peer, (L.jsonUnmarshalAny payload Value.nil).1⟩).1
            (v.sendOutcome c w.connectCtx) ::
          (match v.sendOutcome c w.connectCtx with
            | none =>
              [Event.read c w.connectCtx (v.recvOutcome c w.connectCtx).1
                (v.recvOutcome c w.connectCtx).2.1 (v.recvOutcome c w.connectCtx).2.2]
            | some _ => [])) ∧
      (∃ v', (w.dialed c).WriteAnswer L peer payload v
          = some (v.sendOutcome c w.connectCtx, v') ∧
        v'.trace = v.trace ++
          [Event.write c w.connectCtx MessageType.MessageText
            (L.jsonMarshalSignal ⟨"answer", peer, (L.jsonUnmarshalAny payload Value.nil).1⟩).1
            (v.sendOutcome c w.connectCtx)]) ∧
      (∃ res v', (w.dialed c).WriteCandidate L peer payload v = some (res, v') ∧
        v'.trace = v.trace ++
          [Event.write c w.connectCtx MessageType.MessageText
            (L.jsonMarshalSignal
              ⟨"candidate", peer, (L.jsonUnmarshalAny payload Value.nil).1⟩).1
            (v.sendOutcome c w.connectCtx)]) := by
    intro peer payload v
    exact ⟨waitOffer_trace L _ c _ v rfl rfl, waitOffer_trace L _ c _ v rfl rfl,
      writeOffer_trace L _ c _ peer payload v rfl rfl,
      writeAnswer_trace L _ c _ peer payload v rfl rfl,
      writeCandidate_trace L _ c _ peer payload v rfl rfl⟩
  have htime : ∀ (peer : String) (payload : Bytes) (v : World) (d : Nat),
      (d < Minute → v.elapse w.connectCtx d = v) ∧
      (Minute ≤ d →
        ∃ e,
          (v.elapse w.connectCtx d).sendOutcome c w.connectCtx = some e ∧
          ((v.elapse w.connectCtx d).recvOutcome c w.connectCtx).2.2 = some e ∧
          ((w.dialed c).WaitOffer L (v.elapse w.connectCtx d)).map (fun q => q.1.2)
            = some (some e) ∧
          ((w.dialed c).WaitCandidate L (v.elapse w.connectCtx d)).map (fun q => q.1.2)
            = some (some e) ∧
          ((w.dialed c).WriteOffer L peer payload (v.elapse w.connectCtx d)).map
            (fun q => q.1.2) = some (some e) ∧
          ((w.dialed c).WriteAnswer L peer payload (v.elapse w.connectCtx d)).map
            (fun q => q.1) = some (some e)) := by
    intro peer payload v d
    refine ⟨?_, ?_⟩
    · intro hlt
      simp [World.elapse, World.connectCtx, Nat.not_le.2 hlt]
    · intro hle
      obtain ⟨e, he⟩ := down_elapsed v c Context.background Minute w.serial d hle
      exact ⟨e, results_when_down L (w.dialed c) c w.connectCtx peer payload _ e rfl rfl he⟩
  rcases hml : L.jsonMarshalLogin ⟨"login", login⟩ with ⟨d, me⟩
  cases me with
  | some e =>
    exact ⟨_, _, connect_marshal_error L cli addr login w c d e hd hml, rfl, rfl,
      by simp [target, World.connectCtx], hops, htime⟩
  | none =>
    have hm : (L.jsonMarshalLogin ⟨"login", login⟩).2 = none := by rw [hml]
    cases hs : w.sendOutcome c w.connectCtx with
    | some e =>
      exact ⟨_, _, connect_send_error L cli addr login w c e hd hm hs, rfl, rfl,
        by simp [target, World.connectCtx], hops, htime⟩
    | none =>
      exact ⟨_, _, connect_sent L cli addr login w c hd hm hs, rfl, rfl,
        by simp [target, World.connectCtx], hops, htime⟩

theorem writeCandidates_open (L : Library) (cli : SignalClient) (c : Conn) (x : Context)
    (peer : String) (hconn : cli.conn = some c) (hctx : cli.ctx = some x) :
    ∀ (payloads : List Bytes) (w : World) (ws : List (Option Error)),
      c ∉ w.closed → x ∉ w.cancelled →
      w.writes = List.replicate payloads.length none ++ ws →
      writeCandidates L cli peer payloads w
        = some (List.replicate payloads.length none,
            { w with
              writes := ws
              trace := w.trace ++ payloads.map (fun p =>
                Event.write c x MessageType.MessageText (signalBytes L "candidate" peer p)
                  none) }) := by
  intro payloads
  induction payloads with
  | nil =>
    intro w ws _ _ hw
    simp at hw
    simp [writeCandidates, ← hw]
  | cons p ps ih =>
    intro w ws hc hx hw
    have hw1 : w.writes = none :: (List.replicate ps.length none ++ ws) := by
      simpa [List.replicate_succ] using hw
    have hs : w.sendOutcome c x = none := sendOutcome_of_open w c x none _ hc hx hw1
    have hdn : w.down c x = none := down_of_open w c x hc hx
    simp only [writeCandidates, writeCandidate_connected L cli c x peer p w hconn hctx,
      Conn.Write, hs, hdn]
    have h := ih
      { w with
        writes := w.writes.tail
        trace := w.trace ++
          [Event.write c x MessageType.MessageText (signalBytes L "candidate" peer p) none] }
      ws hc hx (by simp [hw1])
    simp only [Option.isSome_none, Bool.false_eq_true, if_false]
    rw [h]
    simp [List.replicate_succ]

theorem filterMap_sent_writes (c : Conn) (x : Context) (f : Bytes → Bytes) (ps : List Bytes) :
    (ps.map (fun p => Event.write c x MessageType.MessageText (f p) none)).filterMap Event.sent
      = ps.map f := by
  induction ps with
  | nil => rfl
  | cons p ps ih =>
    rw [List.map_cons, List.filterMap_cons, ih]
    rfl

/-- C7: on a connected client whose connection is open and whose next `n`
sends succeed, `n` calls of `WriteCandidate` in sequence for one peer add to
the outbound stream exactly the `n` encodings of the signals of kind
"candidate" for that peer with the payloads as data, in the order of the
calls; the transport sees those `n` sends and nothing else, no receive among
them, and no inbound message is used up. -/
theorem writeCandidates_sends_each (L : Library) (cli : SignalClient) (c : Conn) (x : Context)
    (peer : String) (payloads : List Bytes) (w : World) (ws : List (Option Error))
    (hconn : cli.conn = some c) (hctx : cli.ctx = some x)
    (hc : c ∉ w.closed) (hx : x ∉ w.cancelled)
    (hw : w.writes = List.replicate payloads.length none ++ ws) :
    ∃ w', writeCandidates L cli peer payloads w
        = some (List.replicate payloads.length none, w') ∧
      w'.outbound = w.outbound ++ payloads.map (fun p =>
        (L.jsonMarshalSignal ⟨"candidate", peer, (L.jsonUnmarshalAny p Value.nil).1⟩).1) ∧
      w'.trace = w.trace ++ payloads.map (fun p =>
        Event.write c x MessageType.MessageText
          (L.jsonMarshalSignal ⟨"candidate", peer, (L.jsonUnmarshalAny p Value.nil).1⟩).1
          none) ∧
      w'.reads = w.reads ∧ w'.writes = ws := by
  refine ⟨_, writeCandidates_open L cli c x peer hconn hctx payloads w ws hc hx hw, ?_, rfl,
    rfl, rfl⟩
  simp only [World.outbound, List.filterMap_append]
  rw [filterMap_sent_writes c x (signalBytes L "candidate" peer) payloads]
  rfl

/-- Witness of C1: the offer is sent, then the next message comes back as it
is. -/
theorem writeOffer_returns_next_message_witness :
    client1.WriteOffer sampleLibrary "peerA" (ascii "\"sdp\"") sessionWorld
      = some ((ascii "\x7b\"signal\":\"answer\",\"peer\":\"peerB\",\"data\":true\x7d", none),
          { sessionWorld with
            writes := [none]
            reads := []
            trace := sessionWorld.trace ++
              [Event.write ⟨1⟩ ctx0 MessageType.MessageText
                  (sampleLibrary.jsonMarshalSignal
                    ⟨"offer", "peerA",
                      (sampleLibrary.jsonUnmarshalAny (ascii "\"sdp\"") Value.nil).1⟩).1
                  none,
                Event.read ⟨1⟩ ctx0 MessageType.MessageText
                  (ascii "\x7b\"signal\":\"answer\",\"peer\":\"peerB\",\"data\":true\x7d")
                  none] }) :=
  writeOffer_returns_next_message sampleLibrary client1 ⟨1⟩ ctx0 "peerA" (ascii "\"sdp\"")
    (ascii "\x7b\"signal\":\"answer\",\"peer\":\"peerB\",\"data\":true\x7d")
    MessageType.MessageText sessionWorld [none] [] rfl rfl (by decide) (by decide) rfl rfl

/-- Witness of C9: a payload the codec cannot decode is sent as null, and the
result is the nil error of the send. -/
theorem writeSignal_sends_one_message_witness :
    sampleLibrary.jsonUnmarshalAny (ascii "sdp") Value.nil = (Value.nil, some errCodec) ∧
    sessionWorld.sendOutcome ⟨1⟩ ctx0 = none ∧
    client1.writeSignal sampleLibrary "offer" "peerA" (ascii "sdp") sessionWorld
      = some (sessionWorld.sendOutcome ⟨1⟩ ctx0,
          { sessionWorld with
            writes :=
              if (sessionWorld.down ⟨1⟩ ctx0).isSome then sessionWorld.writes
              else sessionWorld.writes.tail
            trace := sessionWorld.trace ++
              [Event.write ⟨1⟩ ctx0 MessageType.MessageText
                (sampleLibrary.jsonMarshalSignal ⟨"offer", "peerA", Value.nil⟩).1
                (sessionWorld.sendOutcome ⟨1⟩ ctx0)] }) :=
  ⟨rfl, rfl,
    writeSignal_sends_one_message sampleLibrary client1 ⟨1⟩ ctx0 "offer" "peerA" (ascii "sdp")
      sessionWorld Value.nil (some errCodec) rfl rfl rfl⟩

/-- Witness of C6: `WaitOffer` returns a signal of kind "answer" as it is. -/
theorem waitOffer_eq_waitCandidate_witness :
    client1.WaitOffer sampleLibrary sessionWorld
      = some ((⟨"answer", "peerB", Value.bool true⟩, none), (Conn.Read ⟨1⟩ ctx0 sessionWorld).2) :=
  ((waitOffer_eq_waitCandidate sampleLibrary client1 sessionWorld).2 ⟨1⟩ ctx0 rfl rfl).2.1
    MessageType.MessageText
    (ascii "\x7b\"signal\":\"answer\",\"peer\":\"peerB\",\"data\":true\x7d")
    "answer" "peerB" (Value.bool true) none rfl rfl

/-- Witness of C10: the receive after the login ends with the deadline, and
`Connect` returns a nil error. -/
theorem connect_nil_whatever_read_witness :
    (World.start [Except.ok ⟨1⟩] [none] []).recvOutcome ⟨1⟩ ctx0
      = (MessageType.zero, [], some errDeadlineExceeded) ∧
    ∃ w', New.Connect sampleLibrary "host:8080" "alice" (World.start [Except.ok ⟨1⟩] [none] [])
        = some ((client1, none), w') ∧
      w'.trace.getLast?
        = some (Event.read ⟨1⟩ ctx0 MessageType.zero [] (some errDeadlineExceeded)) :=
  ⟨rfl, connect_nil_whatever_read sampleLibrary New "host:8080" "alice"
    (World.start [Except.ok ⟨1⟩] [none] []) ⟨1⟩ rfl rfl rfl⟩

/-- Witness of C4: the login of "alice" encodes, and the activity of `Connect`
is one of the three. -/
theorem connect_transport_activity_witness :
    (sampleLibrary.jsonMarshalLogin ⟨"login", "alice"⟩).2 = none ∧
    sampleLibrary.urlString { Scheme := "ws", Host := "host:8080", Path := "/signal" }
      = "ws://host:8080/signal" ∧
    ∃ r w', New.Connect sampleLibrary "host:8080" "alice" startWorld = some (r, w') ∧
      ((∃ e, startWorld.dialOutcome = Except.error e ∧ r = (New, some e) ∧
          w'.trace = startWorld.trace ++
            [Event.dial startWorld.connectCtx
              (sampleLibrary.urlString { Scheme := "ws", Host := "host:8080", Path := "/signal" })
              (Except.error e)]) ∨
       (∃ c e, startWorld.dialOutcome = Except.ok c ∧ r = (startWorld.dialed c, some e) ∧
          w'.trace = startWorld.trace ++
            [Event.dial startWorld.connectCtx
              (sampleLibrary.urlString { Scheme := "ws", Host := "host:8080", Path := "/signal" })
              (Except.ok c),
             Event.write c startWorld.connectCtx MessageType.MessageText
              (sampleLibrary.jsonMarshalLogin ⟨"login", "alice"⟩).1 (some e)]) ∨
       (∃ c t p e, startWorld.dialOutcome = Except.ok c ∧ r = (startWorld.dialed c, none) ∧
          w'.trace = startWorld.trace ++
            [Event.dial startWorld.connectCtx
              (sampleLibrary.urlString { Scheme := "ws", Host := "host:8080", Path := "/signal" })
              (Except.ok c),
             Event.write c startWorld.connectCtx MessageType.MessageText
              (sampleLibrary.jsonMarshalLogin ⟨"login", "alice"⟩).1 none,
             Event.read c startWorld.connectCtx t p e])) :=
  ⟨rfl, by decide,
    connect_transport_activity sampleLibrary New "host:8080" "alice" startWorld rfl⟩

/-- Counterexample to C5 as stated: the dial succeeds and the login send
fails; `Connect` returns the send's error, and the connection handle and the
context of the client, nil before the call, are populated. -/
theorem connect_send_failure_populates :
    (New.Connect sampleLibrary "host:8080" "alice"
        (World.start [Except.ok ⟨1⟩] [some errBroken] [])).map (fun r => r.1)
      = some (client1, some errBroken) ∧
    client1.conn ≠ New.conn ∧ client1.ctx ≠ New.ctx :=
  ⟨rfl, by decide, by decide⟩

/-- Witness of C5 as amended: a failed dial leaves the client as it was, a
failed login send leaves it populated. -/
theorem connect_failure_paths_witness :
    (New.Connect sampleLibrary "host:8080" "alice"
        (World.start [Except.error errDial] [] [])).map (fun r => r.1)
      = some (New, some errDial) ∧
    (New.Connect sampleLibrary "host:8080" "alice"
        (World.start [Except.ok ⟨1⟩] [some errBroken] [])).map (fun r => r.1)
      = some (⟨some ⟨1⟩, some ctx0, some ⟨ctx0⟩⟩, some errBroken) :=
  ⟨(connect_failure_paths sampleLibrary New "host:8080" "alice"
      (World.start [Except.error errDial] [] [])).1 errDial rfl,
    (connect_failure_paths sampleLibrary New "host:8080" "alice"
      (World.start [Except.ok ⟨1⟩] [some errBroken] [])).2.2 ⟨1⟩ errBroken rfl rfl rfl⟩

/-- Witness of C7: two candidates are sent as two messages, in order. -/
theorem writeCandidates_sends_each_witness :
    ∃ w', writeCandidates sampleLibrary client1 "peerA" [ascii "true", ascii "\"c2\""]
        sessionWorld
        = some (List.replicate [ascii "true", ascii "\"c2\""].length none, w') ∧
      w'.outbound = sessionWorld.outbound ++ [ascii "true", ascii "\"c2\""].map (fun p =>
        (sampleLibrary.jsonMarshalSignal
          ⟨"candidate", "peerA", (sampleLibrary.jsonUnmarshalAny p Value.nil).1⟩).1) ∧
      w'.trace = sessionWorld.trace ++ [ascii "true", ascii "\"c2\""].map (fun p =>
        Event.write ⟨1⟩ ctx0 MessageType.MessageText
          (sampleLibrary.jsonMarshalSignal
            ⟨"candidate", "peerA", (sampleLibrary.jsonUnmarshalAny p Value.nil).1⟩).1
          none) ∧
      w'.reads = sessionWorld.reads ∧ w'.writes = [] :=
  writeCandidates_sends_each sampleLibrary client1 ⟨1⟩ ctx0 "peerA"
    [ascii "true", ascii "\"c2\""] sessionWorld [] rfl rfl (by decide) (by decide) rfl

/-- Witness of C8: the client connected in `startWorld` holds connection 1 and
the context of its dial; its operations issue their sends and receives under
it, and they fail once the minute has passed. -/
theorem session_runs_under_dial_context_witness :
    startWorld.dialOutcome = Except.ok (Conn.mk 1) ∧
    ∃ r w', New.Connect sampleLibrary "host:8080" "alice" startWorld = some (r, w') ∧
      r.1.conn = some (Conn.mk 1) ∧
      r.1.ctx = some (Context.withTimeout Context.background Minute startWorld.serial) ∧
      Event.dial (Context.withTimeout Context.background Minute startWorld.serial)
        (sampleLibrary.urlString { Scheme := "ws", Host := "host:8080", Path := "/signal" }) (Except.ok (Conn.mk 1))
          ∈ w'.trace ∧
      (∀ (peer : String) (payload : Bytes) (v : World),
        (∃ res v', r.1.WaitOffer sampleLibrary v = some (res, v') ∧
          v'.trace = v.trace ++
            [Event.read (Conn.mk 1) (Context.withTimeout Context.background Minute startWorld.serial)
              (v.recvOutcome (Conn.mk 1) (Context.withTimeout Context.background Minute startWorld.serial)).1
              (v.recvOutcome (Conn.mk 1) (Context.withTimeout Context.background Minute startWorld.serial)).2.1
              (v.recvOutcome (Conn.mk 1)
                (Context.withTimeout Context.background Minute startWorld.serial)).2.2]) ∧
        (∃ res v', r.1.WaitCandidate sampleLibrary v = some (res, v') ∧
          v'.trace = v.trace ++
            [Event.read (Conn.mk 1) (Context.withTimeout Context.background Minute startWorld.serial)
              (v.recvOutcome (Conn.mk 1) (Context.withTimeout Context.background Minute startWorld.serial)).1
              (v.recvOutcome (Conn.mk 1) (Context.withTimeout Context.background Minute startWorld.serial)).2.1
              (v.recvOutcome (Conn.mk 1)
                (Context.withTimeout Context.background Minute startWorld.serial)).2.2]) ∧
        (∃ res v', r.1.WriteOffer sampleLibrary peer payload v = some (res, v') ∧
          v'.trace = v.trace ++
            Event.write (Conn.mk 1) (Context.withTimeout Context.background Minute startWorld.serial)
              MessageType.MessageText
              (sampleLibrary.jsonMarshalSignal
                ⟨"offer", peer, (sampleLibrary.jsonUnmarshalAny payload Value.nil).1⟩).1
              (v.sendOutcome (Conn.mk 1) (Context.withTimeout Context.background Minute startWorld.serial)) ::
            (match v.sendOutcome (Conn.mk 1)
                (Context.withTimeout Context.background Minute startWorld.serial) with
              | none =>
                [Event.read (Conn.mk 1) (Context.withTimeout Context.background Minute startWorld.serial)
                  (v.recvOutcome (Conn.mk 1)
                    (Context.withTimeout Context.background Minute startWorld.serial)).1
                  (v.recvOutcome (Conn.mk 1)
                    (Context.withTimeout Context.background Minute startWorld.serial)).2.1
                  (v.recvOutcome (Conn.mk 1)
                    (Context.withTimeout Context.background Minute startWorld.serial)).2.2]
              | some _ => [])) ∧
        (∃ v', r.1.WriteAnswer sampleLibrary peer payload v
            = some (v.sendOutcome (Conn.mk 1)
                (Context.withTimeout Context.background Minute startWorld.serial), v') ∧
          v'.trace = v.trace ++
            [Event.write (Conn.mk 1) (Context.withTimeout Context.background Minute startWorld.serial)
              MessageType.MessageText
              (sampleLibrary.jsonMarshalSignal
                ⟨"answer", peer, (sampleLibrary.jsonUnmarshalAny payload Value.nil).1⟩).1
              (v.sendOutcome (Conn.mk 1)
                (Context.withTimeout Context.background Minute startWorld.serial))]) ∧
        (∃ res v', r.1.WriteCandidate sampleLibrary peer payload v = some (res, v') ∧
          v'.trace = v.trace ++
            [Event.write (Conn.mk 1) (Context.withTimeout Context.background Minute startWorld.serial)
              MessageType.MessageText
              (sampleLibrary.jsonMarshalSignal
                ⟨"candidate", peer, (sampleLibrary.jsonUnmarshalAny payload Value.nil).1⟩).1
              (v.sendOutcome (Conn.mk 1)
                (Context.withTimeout Context.background Minute startWorld.serial))])) ∧
      (∀ (peer : String) (payload : Bytes) (v : World) (d : Nat),
        (d < Minute →
          v.elapse (Context.withTimeout Context.background Minute startWorld.serial) d = v) ∧
        (Minute ≤ d →
          ∃ e,
            (v.elapse (Context.withTimeout Context.background Minute startWorld.serial) d).sendOutcome (Conn.mk 1)
              (Context.withTimeout Context.background Minute startWorld.serial) = some e ∧
            ((v.elapse (Context.withTimeout Context.background Minute startWorld.serial) d).recvOutcome (Conn.mk 1)
              (Context.withTimeout Context.background Minute startWorld.serial)).2.2 = some e ∧
            (r.1.WaitOffer sampleLibrary
              (v.elapse (Context.withTimeout Context.background Minute startWorld.serial) d)).map
                (fun q => q.1.2) = some (some e) ∧
            (r.1.WaitCandidate sampleLibrary
              (v.elapse (Context.withTimeout Context.background Minute startWorld.serial) d)).map
                (fun q => q.1.2) = some (some e) ∧
            (r.1.WriteOffer sampleLibrary peer payload
              (v.elapse (Context.withTimeout Context.background Minute startWorld.serial) d)).map
                (fun q => q.1.2) = some (some e) ∧
            (r.1.WriteAnswer sampleLibrary peer payload
              (v.elapse (Context.withTimeout Context.background Minute startWorld.serial) d)).map
                (fun q => q.1) = some (some e))) :=
  ⟨rfl, session_runs_under_dial_context sampleLibrary New "host:8080" "alice" startWorld
    (Conn.mk 1) rfl⟩

/-- C2, the code at the failing input: a client is connected and closed, so
that a send on its connection fails; `WriteAnswer` returns that error, and
`WriteCandidate`, which performs the same failing send, returns a nil error. -/
theorem writeCandidate_after_close_returns_nil :
    (New.Connect sampleLibrary "host:8080" "alice" startWorld).map (fun r => r.1)
      = some (client1, none) ∧
    closedWorld.map (fun w => w.sendOutcome ⟨1⟩ ctx0) = some (some errClosed) ∧
    (closedWorld.bind (fun w => client1.WriteAnswer sampleLibrary "peerA" (ascii "true") w)).map
      (fun q => q.1) = some (some errClosed) ∧
    (closedWorld.bind
      (fun w => client1.WriteCandidate sampleLibrary "peerA" (ascii "true") w)).map
      (fun q => q.1) = some none :=
  ⟨rfl, rfl, rfl, rfl⟩

/-- C3, the code at the failing input: on a connected client whose next send
fails, `WriteOffer` and `WriteAnswer` return the error of the send, and
`WriteCandidate`, which performs the same failing send, returns a nil error. -/
theorem writeCandidate_send_failure_returns_nil :
    brokenWorld.map (fun w => w.sendOutcome ⟨1⟩ ctx0) = some (some errBroken) ∧
    (brokenWorld.bind (fun w => client1.WriteOffer sampleLibrary "peerA" (ascii "true") w)).map
      (fun q => q.1.2) = some (some errBroken) ∧
    (brokenWorld.bind (fun w => client1.WriteAnswer sampleLibrary "peerA" (ascii "true") w)).map
      (fun q => q.1) = some (some errBroken) ∧
    (brokenWorld.bind
      (fun w => client1.WriteCandidate sampleLibrary "peerA" (ascii "true") w)).map
      (fun q => q.1) = some none :=
  ⟨rfl, rfl, rfl, rfl⟩

theorem close_connected (cli : SignalClient) (c : Conn) (f : CancelFunc) (w : World)
    (hconn : cli.conn = some c) (hcancel : cli.cancel = some f) :
    cli.Close w = some (f.call (c.Close StatusNormalClosure "done" w).2) := by
  simp [SignalClient.Close, hconn, hcancel]

theorem down_after_close (c : Conn) (x : Context) (f : CancelFunc) (code : Nat)
    (reason : String) (w : World) :
    (f.call (c.Close code reason w).2).down c x = some errClosed := by
  simp [World.down, CancelFunc.call, Conn.Close]

/-- After `Close` on a connected client every send and receive on its
connection fails; `WaitOffer`, `WaitCandidate`, `WriteOffer` and `WriteAnswer`
then return that error, and `WriteCandidate` returns a nil error. -/
theorem results_after_close (L : Library) (cli : SignalClient) (c : Conn) (x : Context)
    (f : CancelFunc) (peer : String) (payload : Bytes) (w : World)
    (hconn : cli.conn = some c) (hctx : cli.ctx = some x) (hcancel : cli.cancel = some f) :
    ∃ w', cli.Close w = some w' ∧
      w'.sendOutcome c x = some errClosed ∧
      (w'.recvOutcome c x).2.2 = some errClosed ∧
      (cli.WaitOffer L w').map (fun q => q.1.2) = some (some errClosed) ∧
      (cli.WaitCandidate L w').map (fun q => q.1.2) = some (some errClosed) ∧
      (cli.WriteOffer L peer payload w').map (fun q => q.1.2) = some (some errClosed) ∧
      (cli.WriteAnswer L peer payload w').map (fun q => q.1) = some (some errClosed) ∧
      (cli.WriteCandidate L peer payload w').map (fun q => q.1) = some none := by
  have hdn := down_after_close c x f StatusNormalClosure "done" w
  have hs : (f.call (c.Close StatusNormalClosure "done" w).2).sendOutcome c x
      = some errClosed := by
    simp [World.sendOutcome, hdn]
  have hr : (f.call (c.Close StatusNormalClosure "done" w).2).recvOutcome c x
      = (MessageType.zero, [], some errClosed) := by
    simp [World.recvOutcome, hdn]
  have hwo : cli.WaitOffer L (f.call (c.Close StatusNormalClosure "done" w).2)
      = some ((zeroSignal, some errClosed),
          (c.Read x (f.call (c.Close StatusNormalClosure "done" w).2)).2) := by
    rw [waitOffer_connected L cli c x _ hconn hctx, hr]
  refine ⟨_, close_connected cli c f w hconn hcancel, hs, by rw [hr], ?_, ?_, ?_, ?_, ?_⟩
  · rw [hwo]; rfl
  · have : cli.WaitCandidate L (f.call (c.Close StatusNormalClosure "done" w).2)
        = cli.WaitOffer L (f.call (c.Close StatusNormalClosure "done" w).2) := rfl
    rw [this, hwo]; rfl
  · rw [writeOffer_connected L cli c x peer payload _ hconn hctx, hs]; rfl
  · simp [SignalClient.WriteAnswer, writeSignal_connected L cli c x _ _ _ _ hconn hctx,
      Conn.Write, hs]
  · rw [writeCandidate_connected L cli c x peer payload _ hconn hctx]; rfl

/-- On a connected client whose send fails with `e`, `WriteOffer` and
`WriteAnswer` return `e`, and `WriteCandidate` returns a nil error. -/
theorem results_when_send_fails (L : Library) (cli : SignalClient) (c : Conn) (x : Context)
    (peer : String) (payload : Bytes) (w : World) (e : Error)
    (hconn : cli.conn = some c) (hctx : cli.ctx = some x)
    (hs : w.sendOutcome c x = some e) :
    (cli.WriteOffer L peer payload w).map (fun q => q.1) = some ([], some e) ∧
    (cli.WriteAnswer L peer payload w).map (fun q => q.1) = some (some e) ∧
    (cli.WriteCandidate L peer payload w).map (fun q => q.1) = some none := by
  refine ⟨?_, ?_, ?_⟩
  · rw [writeOffer_connected L cli c x peer payload w hconn hctx, hs]; rfl
  · simp [SignalClient.WriteAnswer, writeSignal_connected L cli c x _ _ _ _ hconn hctx,
      Conn.Write, hs]
  · rw [writeCandidate_connected L cli c x peer payload w hconn hctx]; rfl

end teowebrtc_signal_client
